import Mathlib

/-!
Verification of the BrightScript debug-adapter core
(`vscode-brightscript-language`), shallowly embedded in Lean 4.

The repository orchestrates a debug session against a Roku device:
a breakpoint manager injects `stop` statements into staged source files
(shifting line numbers), a source-location resolver maps runtime
(path, line) coordinates back to source coordinates, and a device
protocol client serializes commands against a single socket.
Pure functions below are translated from the TypeScript source
(`BrightScriptDebugSocketSession.ts` and the behavior fixed by
`FileUtils.spec.ts`); components whose implementation files are not
part of this snapshot (BreakpointManager, FileUtils, RokuSocketAdapter)
are modelled from the specification, and each such definition says so
in its doc comment.
-/

namespace BrightScript

/-! ### Breakpoint-injection line arithmetic (Source Location Resolver)

Modelled from the spec: the BreakpointManager injects one `stop`
statement immediately before each breakpoint's original line, so every
original line at or below an injection point shifts down by one line
per injection above it.  Runtime→source resolution (when no source map
applies) subtracts the number of injected statements at or above the
queried staged line. -/

/-- Modelled from the spec: the staged (runtime) line that original
source line `line` occupies after one statement has been injected
before each breakpoint line in `bps` (breakpoint lines are given in
original-source coordinates). -/
def stagedLineOf (bps : List Nat) (line : Nat) : Nat :=
  line + (bps.filter (fun b => b ≤ line)).length

/-- Modelled from the spec: the staged-file positions of the injected
`stop` statements, for breakpoints at the (sorted) original lines
`bps`; `k` counts the statements already injected above. -/
def injectedStagedLines : List Nat → Nat → List Nat
  | [], _ => []
  | b :: rest, k => (b + k) :: injectedStagedLines rest (k + 1)

/-- The number of injected statements located at or above staged line
`stagedLine`. -/
def countInjectionsAtOrAbove (bps : List Nat) (stagedLine : Nat) : Nat :=
  ((injectedStagedLines bps 0).filter (fun p => p ≤ stagedLine)).length

/-- Modelled from the spec: runtime→source line resolution when no
source map applies — the staged line minus the number of breakpoint
statements injected at or above that line in that file. -/
def resolveSourceLine (bps : List Nat) (stagedLine : Nat) : Nat :=
  stagedLine - countInjectionsAtOrAbove bps stagedLine

lemma injectedStagedLines_all_gt {L : Nat} :
    ∀ (bps : List Nat) (k : Nat), (∀ x ∈ bps, L < x) →
      ∀ p ∈ injectedStagedLines bps k, L + k < p := by
  intro bps
  induction bps with
  | nil => intro k _ p hp; simp [injectedStagedLines] at hp
  | cons b rest ih =>
    intro k hall p hp
    simp only [injectedStagedLines, List.mem_cons] at hp
    rcases hp with rfl | hp
    · have : L < b := hall b (List.mem_cons_self b rest)
      omega
    · have := ih (k + 1) (fun x hx => hall x (List.mem_cons_of_mem b hx)) p hp
      omega

lemma count_injected_staged (L : Nat) :
    ∀ (bps : List Nat) (k : Nat), List.Sorted (· ≤ ·) bps →
      ((injectedStagedLines bps k).filter
          (fun p => p ≤ L + k + (bps.filter (fun b => b ≤ L)).length)).length
        = (bps.filter (fun b => b ≤ L)).length := by
  intro bps
  induction bps with
  | nil => intro k _; simp [injectedStagedLines]
  | cons b rest ih =>
    intro k hs
    rw [List.sorted_cons] at hs
    obtain ⟨hb, hrest⟩ := hs
    by_cases hbL : b ≤ L
    · have hfilter : (b :: rest).filter (fun x => x ≤ L)
          = b :: rest.filter (fun x => x ≤ L) := by
        simp [List.filter_cons, hbL]
      rw [hfilter]
      simp only [injectedStagedLines, List.filter_cons, List.length_cons]
      have hhead : b + k ≤ L + k + ((rest.filter (fun x => x ≤ L)).length + 1) := by
        omega
      rw [if_pos (decide_eq_true hhead), List.length_cons]
      have hrec := ih (k + 1) hrest
      have harith : L + k + ((rest.filter (fun x => x ≤ L)).length + 1)
          = L + (k + 1) + (rest.filter (fun x => x ≤ L)).length := by omega
      simp only [harith]
      rw [hrec]
    · have hallgt : ∀ x ∈ b :: rest, L < x := by
        intro x hx
        rcases List.mem_cons.mp hx with rfl | hx
        · omega
        · have := hb x hx; omega
      have hfilter : (b :: rest).filter (fun x => x ≤ L) = [] := by
        rw [List.filter_eq_nil_iff]
        intro x hx
        have := hallgt x hx
        simp only [decide_eq_true_eq]
        omega
      rw [hfilter]
      simp only [List.length_nil, Nat.add_zero]
      rw [List.length_eq_zero, List.filter_eq_nil_iff]
      intro p hp
      have := injectedStagedLines_all_gt (b :: rest) k hallgt p hp
      simp only [decide_eq_true_eq]
      omega

/-- C1: runtime→source line resolution subtracts the number of injected
statements at or above the queried staged line (first conjunct, the
definition of the resolver); resolving runtime line 9 of a file with
breakpoints injected at original lines 3 and 7 yields source line 7
(second conjunct); and injection followed by resolution round-trips
every original line back to itself (third conjunct). -/
theorem resolveSourceLine_roundtrip (bps : List Nat) (r line : Nat)
    (hs : List.Sorted (· ≤ ·) bps) :
    resolveSourceLine bps r = r - countInjectionsAtOrAbove bps r
    ∧ resolveSourceLine [3, 7] 9 = 7
    ∧ resolveSourceLine bps (stagedLineOf bps line) = line := by
  refine ⟨rfl, by decide, ?_⟩
  unfold resolveSourceLine countInjectionsAtOrAbove stagedLineOf
  have := count_injected_staged line bps 0 hs
  have harith : line + 0 + (bps.filter (fun b => b ≤ line)).length
      = line + (bps.filter (fun b => b ≤ line)).length := by omega
  rw [harith] at this
  rw [this]
  omega

/-- Witness for `resolveSourceLine_roundtrip` at breakpoints {3, 7} and
original line 7 (staged to runtime line 9). -/
theorem resolveSourceLine_roundtrip_witness :
    List.Sorted (· ≤ ·) [3, 7]
    ∧ (resolveSourceLine [3, 7] 9 = 9 - countInjectionsAtOrAbove [3, 7] 9
      ∧ resolveSourceLine [3, 7] 9 = 7
      ∧ resolveSourceLine [3, 7] (stagedLineOf [3, 7] 7) = 7) :=
  ⟨by decide, resolveSourceLine_roundtrip [3, 7] 9 7 (by decide)⟩

/-! ### Breakpoints (Breakpoint Manager and `setBreakPointsRequest`) -/

/-- A breakpoint as managed per file: identified by (line, column),
carrying the user-visible condition fields and the derived `isHidden`
flag (true for breakpoints injected automatically rather than requested
by the user). -/
structure Breakpoint where
  line : Nat
  column : Nat
  enabled : Bool := true
  hitCondition : Option Nat := none
  logMessage : Option (List Char) := none
  isHidden : Bool := false
deriving DecidableEq, Repr

/-- The identity of a breakpoint within one file: its (line, column). -/
def bpKey (b : Breakpoint) : Nat × Nat := (b.line, b.column)

/-- Non-strict "line then column" order used by `orderBy` in
`setBreakPointsRequest`. -/
def bpLe (a b : Breakpoint) : Prop :=
  a.line < b.line ∨ (a.line = b.line ∧ a.column ≤ b.column)

/-- Strict "line then column" order. -/
def bpLt (a b : Breakpoint) : Prop :=
  a.line < b.line ∨ (a.line = b.line ∧ a.column < b.column)

instance : DecidableRel bpLe := fun a b => by unfold bpLe; infer_instance

instance : DecidableRel bpLt := fun a b => by unfold bpLt; infer_instance

instance : IsTotal Breakpoint bpLe :=
  ⟨fun a b => by unfold bpLe; omega⟩

instance : IsTrans Breakpoint bpLe :=
  ⟨fun a b c hab hbc => by simp only [bpLe] at hab hbc ⊢; omega⟩

instance : IsAntisymm Breakpoint bpLt :=
  ⟨fun a b h1 h2 => False.elim (by simp only [bpLt] at h1 h2; omega)⟩

/-- Modelled from the spec: `BreakpointManager.replaceBreakpoints` for
one (normalized) file path — merges the requested breakpoints with the
current set for that path, de-duplicates, and returns the result sorted
by line then column, deterministic so that repeated submissions with
the same input produce the same output order. -/
def replaceBreakpoints (currentSet requested : List Breakpoint) : List Breakpoint :=
  List.insertionSort bpLe ((currentSet ++ requested).dedup)

/-- Translated from `setBreakPointsRequest`
(`BrightScriptDebugSocketSession.ts`): the response body sorts the
breakpoints returned by `replaceBreakpoints` by (line, column) and then
filters out the hidden ones. -/
def setBreakPointsResponseBody (sanitizedBreakpoints : List Breakpoint) : List Breakpoint :=
  (List.insertionSort bpLe sanitizedBreakpoints).filter (fun x => x.isHidden == false)

lemma sorted_key_distinct_canonical {l₁ l₂ : List Breakpoint}
    (hperm : l₁.Perm l₂)
    (hs₁ : List.Sorted bpLe l₁) (hs₂ : List.Sorted bpLe l₂)
    (hk₁ : l₁.Pairwise (fun a b => bpKey a ≠ bpKey b)) : l₁ = l₂ := by
  have hk₂ : l₂.Pairwise (fun a b => bpKey a ≠ bpKey b) :=
    (hperm.pairwise_iff (fun hne => hne.symm)).mp hk₁
  have hlt₁ : List.Sorted bpLt l₁ := by
    refine (hs₁.and hk₁).imp ?_
    intro a b hab
    obtain ⟨hle, hne⟩ := hab
    simp only [bpLe] at hle
    simp only [bpLt]
    simp only [ne_eq, bpKey, Prod.mk.injEq, not_and] at hne
    by_cases h : a.line = b.line
    · right
      refine ⟨h, ?_⟩
      have := hne h
      omega
    · omega
  have hlt₂ : List.Sorted bpLt l₂ := by
    refine (hs₂.and hk₂).imp ?_
    intro a b hab
    obtain ⟨hle, hne⟩ := hab
    simp only [bpLe] at hle
    simp only [bpLt]
    simp only [ne_eq, bpKey, Prod.mk.injEq, not_and] at hne
    by_cases h : a.line = b.line
    · right
      refine ⟨h, ?_⟩
      have := hne h
      omega
    · omega
  exact List.eq_of_perm_of_sorted hperm hlt₁ hlt₂

/-- C3: `replaceBreakpoints` is deterministic up to input order — for
identical content submitted in any order (over breakpoint sets, whose
elements are identified by (line, column)), the returned lists are
equal (hence element-for-element equal after any further sorting by
(line, column)); the returned list is sorted by line then column,
duplicate-free, and consists of the merged current and requested
breakpoints. -/
theorem replaceBreakpoints_deterministic (cur l₁ l₂ : List Breakpoint)
    (hperm : l₁.Perm l₂)
    (hkeys : (cur ++ l₁).Pairwise (fun a b => bpKey a ≠ bpKey b)) :
    replaceBreakpoints cur l₁ = replaceBreakpoints cur l₂
    ∧ List.Sorted bpLe (replaceBreakpoints cur l₁)
    ∧ (replaceBreakpoints cur l₁).Nodup
    ∧ (∀ x, x ∈ replaceBreakpoints cur l₁ ↔ x ∈ cur ++ l₁) := by
  have happ : (cur ++ l₁).Perm (cur ++ l₂) := hperm.append_left cur
  have hnd₁ : (cur ++ l₁).Nodup :=
    hkeys.imp (fun hne he => hne (by rw [he]))
  have hkeys₂ : (cur ++ l₂).Pairwise (fun a b => bpKey a ≠ bpKey b) :=
    (happ.pairwise_iff (fun hne => hne.symm)).mp hkeys
  have hnd₂ : (cur ++ l₂).Nodup :=
    hkeys₂.imp (fun hne he => hne (by rw [he]))
  have hd₁ : (cur ++ l₁).dedup = cur ++ l₁ := List.dedup_eq_self.mpr hnd₁
  have hd₂ : (cur ++ l₂).dedup = cur ++ l₂ := List.dedup_eq_self.mpr hnd₂
  have hperm₁ : (replaceBreakpoints cur l₁).Perm (cur ++ l₁) := by
    unfold replaceBreakpoints
    rw [hd₁]
    exact List.perm_insertionSort bpLe (cur ++ l₁)
  have hperm₂ : (replaceBreakpoints cur l₂).Perm (cur ++ l₂) := by
    unfold replaceBreakpoints
    rw [hd₂]
    exact List.perm_insertionSort bpLe (cur ++ l₂)
  have hs₁ : List.Sorted bpLe (replaceBreakpoints cur l₁) :=
    List.sorted_insertionSort bpLe _
  have hs₂ : List.Sorted bpLe (replaceBreakpoints cur l₂) :=
    List.sorted_insertionSort bpLe _
  have hk₁ : (replaceBreakpoints cur l₁).Pairwise (fun a b => bpKey a ≠ bpKey b) :=
    (hperm₁.pairwise_iff (fun hne => hne.symm)).mpr hkeys
  refine ⟨?_, hs₁, ?_, ?_⟩
  · exact sorted_key_distinct_canonical
      (hperm₁.trans (happ.trans hperm₂.symm)) hs₁ hs₂ hk₁
  · exact hperm₁.nodup_iff.mpr hnd₁
  · intro x
    exact hperm₁.mem_iff

/-- A user breakpoint at line 1, column 0. -/
def bpSample1 : Breakpoint := { line := 1, column := 0 }

/-- A user breakpoint at line 2, column 0. -/
def bpSample2 : Breakpoint := { line := 2, column := 0 }

/-- Witness for `replaceBreakpoints_deterministic`: the two-element set
{line 1, line 2} submitted in both orders. -/
theorem replaceBreakpoints_deterministic_witness :
    ([bpSample1, bpSample2] : List Breakpoint).Perm [bpSample2, bpSample1]
    ∧ (([] : List Breakpoint) ++ [bpSample1, bpSample2]).Pairwise
        (fun a b => bpKey a ≠ bpKey b)
    ∧ (replaceBreakpoints [] [bpSample1, bpSample2]
          = replaceBreakpoints [] [bpSample2, bpSample1]
        ∧ List.Sorted bpLe (replaceBreakpoints [] [bpSample1, bpSample2])
        ∧ (replaceBreakpoints [] [bpSample1, bpSample2]).Nodup
        ∧ (∀ x, x ∈ replaceBreakpoints [] [bpSample1, bpSample2]
            ↔ x ∈ ([] : List Breakpoint) ++ [bpSample1, bpSample2])) :=
  ⟨by decide, by decide,
    replaceBreakpoints_deterministic [] [bpSample1, bpSample2] [bpSample2, bpSample1]
      (by decide) (by decide)⟩

/-- C10: the `setBreakpoints` response body contains exactly those
breakpoints returned by `replaceBreakpoints` whose hidden flag is
false, sorted ascending by (line, column): as a multiset it equals the
non-hidden breakpoints of the managed result, it is sorted, and hidden
breakpoints never appear in it. -/
theorem setBreakPointsResponseBody_spec (cur requested : List Breakpoint) :
    (setBreakPointsResponseBody (replaceBreakpoints cur requested)).Perm
        ((replaceBreakpoints cur requested).filter (fun x => x.isHidden == false))
    ∧ List.Sorted bpLe (setBreakPointsResponseBody (replaceBreakpoints cur requested))
    ∧ (∀ x, x ∈ setBreakPointsResponseBody (replaceBreakpoints cur requested)
        ↔ x ∈ replaceBreakpoints cur requested ∧ x.isHidden = false) := by
  refine ⟨?_, ?_, ?_⟩
  · exact (List.perm_insertionSort bpLe _).filter _
  · exact List.Pairwise.sublist (List.filter_sublist _)
      (List.sorted_insertionSort bpLe (replaceBreakpoints cur requested))
  · intro x
    unfold setBreakPointsResponseBody
    rw [List.mem_filter]
    constructor
    · intro hx
      obtain ⟨hmem, hh⟩ := hx
      refine ⟨(List.perm_insertionSort bpLe _).mem_iff.mp hmem, ?_⟩
      simpa using hh
    · intro hx
      obtain ⟨hmem, hh⟩ := hx
      refine ⟨(List.perm_insertionSort bpLe _).mem_iff.mpr hmem, ?_⟩
      simpa using hh

/-! ### The one-shot deferred (`defer`) -/

/-- The completion flags of a deferred produced by `defer()`
(`BrightScriptDebugSocketSession.ts`): `isResolved` and `isRejected`,
both initially false. -/
structure DeferState where
  isResolved : Bool
  isRejected : Bool
deriving DecidableEq, Repr

/-- A freshly created deferred. -/
def deferInit : DeferState := { isResolved := false, isRejected := false }

/-- Translated from `defer`: `isCompleted` is true once the deferred
has been resolved or rejected. -/
def deferIsCompleted (s : DeferState) : Bool := s.isResolved || s.isRejected

/-- Translated from `defer().resolve`: throws only when `isResolved` is
already true, otherwise sets `isResolved` and settles. -/
def deferResolve (s : DeferState) : Except (List Char) DeferState :=
  if !s.isResolved then Except.ok { s with isResolved := true }
  else Except.error (String.toList "Attempted to resolve a promise that was already resolved.")

/-- Translated from `defer().reject`: throws when `isCompleted` is
already true, otherwise sets `isRejected` and settles. -/
def deferReject (s : DeferState) : Except (List Char) DeferState :=
  if !(deferIsCompleted s) then Except.ok { s with isRejected := true }
  else Except.error (String.toList "Attempted to reject a promise that was already resolved or rejected.")

/-- C9 (divergence): the double-resolution guard is asymmetric. A
second `resolve` after `resolve`, and any `reject` after completion,
throw as the claim states — but a `resolve` issued after `reject` does
NOT throw even though the deferred is already completed: it returns
successfully and flips `isResolved`, so the code violates the claimed
invariant on the input "reject, then resolve". -/
theorem deferResolve_after_reject_does_not_throw :
    deferResolve deferInit = Except.ok { isResolved := true, isRejected := false }
    ∧ (deferResolve { isResolved := true, isRejected := false }).isOk = false
    ∧ (deferReject { isResolved := true, isRejected := false }).isOk = false
    ∧ deferReject deferInit = Except.ok { isResolved := false, isRejected := true }
    ∧ (deferReject { isResolved := false, isRejected := true }).isOk = false
    ∧ deferIsCompleted { isResolved := false, isRejected := true } = true
    ∧ deferResolve { isResolved := false, isRejected := true }
        = Except.ok { isResolved := true, isRejected := true } :=
  ⟨rfl, rfl, rfl, rfl, rfl, rfl, rfl⟩

/-! ### FileUtils: truncated-path resolution and component-library index

The implementation file (`debugServer/FileUtils.ts`) is not part of
this snapshot; the definitions below are modelled from the spec, with
the behavior fixed by `FileUtils.spec.ts`. -/

/-- The characters of a string literal. -/
def chars (s : String) : List Char := s.data

/-- Modelled from the spec: `fileUtils.removeFileTruncation` removes
the leading truncation marker `...` when present. -/
def removeFileTruncation (filePath : List Char) : List Char :=
  if (chars "...").isPrefixOf filePath then filePath.drop 3 else filePath

/-- Modelled from the spec: `fileUtils.pathEndsWith` — whether the
relative path ends with the given (already de-truncated) suffix. -/
def pathEndsWith (filePath suffixPath : List Char) : Bool :=
  suffixPath.isSuffixOf filePath

/-- Result of a truncated-path search: the chosen file, if any, plus
the number of ambiguity warnings emitted. -/
structure PartialFindResult where
  found : Option (List Char)
  warningCount : Nat
deriving DecidableEq, Repr

/-- Modelled from the spec: `fileUtils.findPartialFileInDirectory` —
searches the directory's relative paths for files ending with the
truncated query; with more than one match the first match wins and one
warning is emitted; with no matches the result is `none`; the search
never fails. -/
def findPartialFileInDirectory (partialFilePath : List Char)
    (allRelativePaths : List (List Char)) : PartialFindResult :=
  let truncated := removeFileTruncation partialFilePath
  match allRelativePaths.filter (fun p => pathEndsWith p truncated) with
  | [] => { found := none, warningCount := 0 }
  | [x] => { found := some x, warningCount := 0 }
  | x :: _ :: _ => { found := some x, warningCount := 1 }

/-- C6: truncated-path resolution is deterministic and total on
ambiguity: whenever more than one candidate matches the truncated
query, the first match (in search order) is returned together with
exactly one warning; concretely, the query `...lib.brs` against
candidates containing `source/lib1/lib.brs` and `source/lib2/lib.brs`
returns `source/lib1/lib.brs` with exactly one warning. -/
theorem findPartialFileInDirectory_ambiguity (q m next : List Char)
    (paths rest : List (List Char))
    (hm : paths.filter (fun p => pathEndsWith p (removeFileTruncation q))
        = m :: next :: rest) :
    findPartialFileInDirectory q paths = { found := some m, warningCount := 1 }
    ∧ findPartialFileInDirectory (chars "...lib.brs")
        [chars "source/main.brs", chars "source/lib1/lib.brs", chars "source/lib2/lib.brs"]
        = { found := some (chars "source/lib1/lib.brs"), warningCount := 1 } := by
  constructor
  · simp only [findPartialFileInDirectory]
    rw [hm]
  · decide

/-- Witness for `findPartialFileInDirectory_ambiguity` at the concrete
candidate list of the ambiguity scenario. -/
theorem findPartialFileInDirectory_ambiguity_witness :
    ([chars "source/main.brs", chars "source/lib1/lib.brs",
        chars "source/lib2/lib.brs"].filter
      (fun p => pathEndsWith p (removeFileTruncation (chars "...lib.brs")))
      = chars "source/lib1/lib.brs" :: chars "source/lib2/lib.brs" :: [])
    ∧ (findPartialFileInDirectory (chars "...lib.brs")
          [chars "source/main.brs", chars "source/lib1/lib.brs", chars "source/lib2/lib.brs"]
          = { found := some (chars "source/lib1/lib.brs"), warningCount := 1 }
        ∧ findPartialFileInDirectory (chars "...lib.brs")
            [chars "source/main.brs", chars "source/lib1/lib.brs", chars "source/lib2/lib.brs"]
            = { found := some (chars "source/lib1/lib.brs"), warningCount := 1 }) :=
  ⟨by decide,
    findPartialFileInDirectory_ambiguity (chars "...lib.brs")
      (chars "source/lib1/lib.brs") (chars "source/lib2/lib.brs")
      [chars "source/main.brs", chars "source/lib1/lib.brs", chars "source/lib2/lib.brs"]
      [] (by decide)⟩

/-- The stem of a path: everything before the final extension dot (the
whole path when there is no dot). -/
def dropExtension (s : List Char) : List Char :=
  match s.reverse.dropWhile (fun c => c ≠ '.') with
  | [] => s
  | _ :: t => t.reverse

/-- The text after the last (rightmost) occurrence of `token` in `s`,
or `none` when the token does not occur. -/
def textAfterLast (token : List Char) : List Char → Option (List Char)
  | [] => none
  | c :: rest =>
    match textAfterLast token rest with
    | some t => some t
    | none =>
      if token.isPrefixOf (c :: rest) then some ((c :: rest).drop token.length)
      else none

/-- The number denoted by a list of decimal digits. -/
def parseDecimal (ds : List Char) : Nat :=
  ds.foldl (fun acc c => acc * 10 + (c.toNat - 48)) 0

/-- Modelled from the spec: `fileUtils.getComponentLibraryIndex` — a
runtime path belongs to component library `i` exactly when its
filename carries the reserved postfix token immediately followed by
the decimal number `i` before the extension; otherwise (token absent,
no digits after the token, or non-numeric text after the token) the
path belongs to the main project and the result is `none`. -/
def getComponentLibraryIndex (filePath postfixToken : List Char) : Option Nat :=
  match textAfterLast postfixToken (dropExtension filePath) with
  | none => none
  | some trailing =>
    if trailing.isEmpty then none
    else if trailing.all (fun c => c.isDigit) then some (parseDecimal trailing)
    else none

/-- C7: component-library index extraction — `pkg:/source/main__lib2.brs`
resolves to library index 2 (and `__lib0`, `__lib12` to 0 and 12),
while a path with the postfix but no digits (`main__lib.brs`), a path
with a different postfix (`main__notlib1.brs`), and a path whose text
after the postfix is not a number (`main__libcat.brs`) all resolve to
no library index. -/
theorem getComponentLibraryIndex_cases :
    getComponentLibraryIndex (chars "pkg:/source/main__lib2.brs") (chars "__lib") = some 2
    ∧ getComponentLibraryIndex (chars "pkg:/source/main__lib0.brs") (chars "__lib") = some 0
    ∧ getComponentLibraryIndex (chars "pkg:/source/main__lib12.brs") (chars "__lib") = some 12
    ∧ getComponentLibraryIndex (chars "pkg:/source/main__lib.brs") (chars "__lib") = none
    ∧ getComponentLibraryIndex (chars "pkg:/source/main__notlib1.brs") (chars "__lib") = none
    ∧ getComponentLibraryIndex (chars "pkg:/source/main__libcat.brs") (chars "__lib") = none := by
  decide

/-! ### Breakpoint locking (Breakpoint Manager)

Modelled from the spec: `lockBreakpoints()` freezes further mutation
once a project begins staging; any later `replaceBreakpoints` call
fails with a "locked" error and the breakpoint set never changes until
the session ends. -/

/-- Error taxonomy of the Breakpoint Manager. -/
inductive BreakpointError
  | breakpointsLocked
deriving DecidableEq, Repr

/-- The Breakpoint Manager's state: the per-file breakpoint sets,
keyed by normalized source path, plus the lock flag. -/
structure BreakpointManagerState where
  breakpoints : List (List Char × List Breakpoint)
  locked : Bool
deriving Repr

/-- Modelled from the spec: `lockBreakpoints()` — freezes further
mutation. -/
def lockBreakpoints (s : BreakpointManagerState) : BreakpointManagerState :=
  { s with locked := true }

/-- Modelled from the spec: the stateful `replaceBreakpoints` entry
point — fails with a locked error after `lockBreakpoints`, otherwise
replaces the set for the path and returns the merged, de-duplicated,
sorted list. -/
def replaceBreakpointsOp (s : BreakpointManagerState) (path : List Char)
    (requested : List Breakpoint) :
    Except BreakpointError (BreakpointManagerState × List Breakpoint) :=
  if s.locked then Except.error BreakpointError.breakpointsLocked
  else
    let current := ((s.breakpoints.lookup path).getD []).filter (fun b => b.isHidden)
    let merged := replaceBreakpoints current requested
    Except.ok
      ({ s with breakpoints :=
          (path, merged) :: s.breakpoints.eraseP (fun kv => kv.1 == path) },
        merged)

/-- Runs a sequence of `replaceBreakpoints` requests, threading the
manager state; a failed request leaves the state unchanged. -/
def runReplaceRequests (s : BreakpointManagerState) :
    List (List Char × List Breakpoint) → BreakpointManagerState
  | [] => s
  | (path, requested) :: rest =>
    match replaceBreakpointsOp s path requested with
    | Except.ok (s', _) => runReplaceRequests s' rest
    | Except.error _ => runReplaceRequests s rest

/-- C8: after `lockBreakpoints()` every `replaceBreakpoints` call fails
with the locked error (never silently ignored), and the breakpoint set
remains unchanged under any further sequence of replace requests until
the session ends. -/
theorem lockBreakpoints_freezes (s : BreakpointManagerState) (path : List Char)
    (requested : List Breakpoint) (later : List (List Char × List Breakpoint)) :
    (lockBreakpoints s).locked = true
    ∧ replaceBreakpointsOp (lockBreakpoints s) path requested
        = Except.error BreakpointError.breakpointsLocked
    ∧ runReplaceRequests (lockBreakpoints s) later = lockBreakpoints s := by
  refine ⟨rfl, rfl, ?_⟩
  induction later with
  | nil => rfl
  | cons head rest ih =>
    obtain ⟨hpath, hreq⟩ := head
    simpa [runReplaceRequests, replaceBreakpointsOp, lockBreakpoints] using ih

/-! ### Device Protocol Client command serialization

The RokuSocketAdapter implementation is not part of this snapshot; the
command-issuing discipline below is modelled from the spec: the client
owns a single socket, at most one synchronous command may be
outstanding, a command issued while another is pending is either
queued to run after the pending command's terminal reply or rejected
with a busy error, and every write of a command's bytes is atomic
(never interleaved with another command's write). -/

/-- A terminal reply to a synchronous command: success, error, or
timeout. -/
inductive Reply
  | success
  | error
  | timeout
deriving DecidableEq, Repr

/-- The synchronous command surface of the Device Protocol Client. -/
inductive DeviceCommand
  | continueCmd
  | pause
  | stepOver (threadId : Nat)
  | stepInto (threadId : Nat)
  | stepOut (threadId : Nat)
  | getThreads
  | getStackTrace (threadId : Nat)
  | getVariable (expression : List Char) (frameId : Nat) (isRootScope : Bool)
  | evaluate (expression : List Char)
  | exitActiveDebugger
deriving DecidableEq, Repr

/-- An observable operation on the single socket: an (atomic) write of
one command's bytes, or the arrival of that command's terminal
reply. -/
inductive SocketOp
  | write (c : DeviceCommand)
  | reply (c : DeviceCommand) (r : Reply)
deriving DecidableEq, Repr

/-- The command-issuing state of the Device Protocol Client: the
command currently outstanding on the socket (if any), the queue of
accepted-but-not-yet-written commands, and the socket history. -/
structure ClientState where
  inFlight : Option DeviceCommand
  queue : List DeviceCommand
  socketLog : List SocketOp
deriving DecidableEq, Repr

/-- The initial client state: nothing written, nothing pending. -/
def clientInit : ClientState :=
  { inFlight := none, queue := [], socketLog := [] }

/-- Modelled from the spec: one step of the command-issuing discipline.
A command is written immediately when the client is idle; a command
issued while another is outstanding is queued or rejected with a busy
error (no write either way); a terminal reply resolves the outstanding
command and the next queued command, if any, is written only then. -/
inductive ClientStep : ClientState → ClientState → Prop
  | issueIdle (s : ClientState) (c : DeviceCommand) (h : s.inFlight = none) :
      ClientStep s { inFlight := some c, queue := s.queue,
                     socketLog := s.socketLog ++ [SocketOp.write c] }
  | issueQueued (s : ClientState) (c c₀ : DeviceCommand) (h : s.inFlight = some c₀) :
      ClientStep s { s with queue := s.queue ++ [c] }
  | issueRejectedBusy (s : ClientState) (c c₀ : DeviceCommand) (h : s.inFlight = some c₀) :
      ClientStep s s
  | resolveReply (s : ClientState) (c : DeviceCommand) (r : Reply)
      (h : s.inFlight = some c) (hq : s.queue = []) :
      ClientStep s { inFlight := none, queue := [],
                     socketLog := s.socketLog ++ [SocketOp.reply c r] }
  | resolveReplyNext (s : ClientState) (c c' : DeviceCommand)
      (rest : List DeviceCommand) (r : Reply)
      (h : s.inFlight = some c) (hq : s.queue = c' :: rest) :
      ClientStep s { inFlight := some c', queue := rest,
                     socketLog := s.socketLog ++ [SocketOp.reply c r, SocketOp.write c'] }

/-- A serialized socket history: writes and terminal replies strictly
alternate, each reply matches the outstanding write, and the history
ends with an unreplied write exactly when a command is outstanding. -/
inductive WellFormedLog : List SocketOp → Option DeviceCommand → Prop
  | nil : WellFormedLog [] none
  | write (l : List SocketOp) (c : DeviceCommand) (h : WellFormedLog l none) :
      WellFormedLog (l ++ [SocketOp.write c]) (some c)
  | reply (l : List SocketOp) (c : DeviceCommand) (r : Reply)
      (h : WellFormedLog l (some c)) :
      WellFormedLog (l ++ [SocketOp.reply c r]) none

/-- The number of command writes in a socket history. -/
def countWrites (l : List SocketOp) : Nat :=
  (l.filter fun op => match op with | SocketOp.write _ => true | _ => false).length

/-- The number of terminal replies in a socket history. -/
def countReplies (l : List SocketOp) : Nat :=
  (l.filter fun op => match op with | SocketOp.reply _ _ => true | _ => false).length

/-- 1 when a command is outstanding, else 0. -/
def pendingOf (f : Option DeviceCommand) : Nat :=
  match f with
  | some _ => 1
  | none => 0

lemma wellFormedLog_of_clientStep {s t : ClientState} (hstep : ClientStep s t)
    (hwf : WellFormedLog s.socketLog s.inFlight) :
    WellFormedLog t.socketLog t.inFlight := by
  cases hstep with
  | issueIdle c h =>
    rw [h] at hwf
    exact WellFormedLog.write s.socketLog c hwf
  | issueQueued c c₀ h => exact hwf
  | issueRejectedBusy c c₀ h => exact hwf
  | resolveReply c r h hq =>
    rw [h] at hwf
    exact WellFormedLog.reply s.socketLog c r hwf
  | resolveReplyNext c c' rest r h hq =>
    rw [h] at hwf
    have h1 := WellFormedLog.reply s.socketLog c r hwf
    have h2 := WellFormedLog.write (s.socketLog ++ [SocketOp.reply c r]) c' h1
    simpa [List.append_assoc] using h2

lemma wellFormedLog_counts {l : List SocketOp} {f : Option DeviceCommand}
    (hwf : WellFormedLog l f) :
    countWrites l = countReplies l + pendingOf f := by
  induction hwf with
  | nil => rfl
  | write l c h ih =>
    simp [countWrites, countReplies, List.filter_append, pendingOf] at ih ⊢
    omega
  | reply l c r h ih =>
    simp [countWrites, countReplies, List.filter_append, pendingOf] at ih ⊢
    omega

/-- C2: in every reachable state of the command-issuing step relation,
the socket history is strictly serialized — writes and terminal
replies alternate (`WellFormedLog`), so a second command is never
written before the first command's terminal reply; consequently at
most one written command is ever unreplied, and none is when the
client is idle.  (Commands issued while another is outstanding are, by
the step relation, queued or rejected without touching the socket, and
each write is atomic, so no bytes interleave.) -/
theorem clientCommands_serialized (s : ClientState)
    (h : Relation.ReflTransGen ClientStep clientInit s) :
    WellFormedLog s.socketLog s.inFlight
    ∧ countWrites s.socketLog ≤ countReplies s.socketLog + 1
    ∧ (s.inFlight = none → countWrites s.socketLog = countReplies s.socketLog) := by
  have hwf : WellFormedLog s.socketLog s.inFlight := by
    induction h with
    | refl => exact WellFormedLog.nil
    | tail hr hstep ih => exact wellFormedLog_of_clientStep hstep ih
  have hcount := wellFormedLog_counts hwf
  refine ⟨hwf, ?_, ?_⟩
  · cases hf : s.inFlight with
    | none => rw [hf] at hcount; simp [pendingOf] at hcount; omega
    | some c => rw [hf] at hcount; simp [pendingOf] at hcount; omega
  · intro hf
    rw [hf] at hcount
    simpa [pendingOf] using hcount

/-- Witness for `clientCommands_serialized` at the initial state. -/
theorem clientCommands_serialized_witness :
    WellFormedLog clientInit.socketLog clientInit.inFlight
    ∧ countWrites clientInit.socketLog ≤ countReplies clientInit.socketLog + 1
    ∧ (clientInit.inFlight = none →
        countWrites clientInit.socketLog = countReplies clientInit.socketLog) :=
  clientCommands_serialized clientInit Relation.ReflTransGen.refl

/-! ### Session request handlers (`BrightScriptDebugSocketSession.ts`)

The handlers below are translated from the source.  Adapter replies
and file-system lookups are external effects; they enter as explicit
oracle parameters, and each handler returns the list of device
commands it issued together with its outcome. -/

/-- A thread as reported by the adapter's `getThreads`. -/
structure RokuThread where
  threadId : Nat
deriving DecidableEq, Repr

/-- A stack frame as reported by the adapter's `getStackTrace`. -/
structure DebugFrame where
  frameId : Nat
  functionIdentifier : List Char
  filePath : List Char
  lineNumber : Nat
deriving DecidableEq, Repr

/-- A resolved source location (`projectManager.getSourceLocation`). -/
structure SourceLocation where
  filePath : List Char
  lineNumber : Nat
deriving DecidableEq, Repr

/-- The key type of a container variable reported by the adapter. -/
inductive ContainerKeyType
  | integerKey
  | stringKey
deriving DecidableEq, Repr

/-- A variable evaluation result from the adapter (`EvaluateContainer`). -/
structure EvaluateContainer where
  name : List Char
  evaluateName : List Char
  type : List Char
  value : List Char
  keyType : Option ContainerKeyType
  elementCount : Nat
  children : List EvaluateContainer
deriving Repr

/-- A variable as handed to the host (`AugmentedVariable`). -/
structure AugmentedVariable where
  name : List Char
  value : List Char
  variablesReference : Nat
  namedVariables : Nat
  indexedVariables : Nat
  evaluateName : List Char
  frameId : Nat
  childVariables : List AugmentedVariable
deriving Repr

/-- Translated from `getVariableFromResult`: builds the host-facing
variable tree from an adapter result; `refIdOf` stands for the
memoized `getEvaluateRefId` counter table. -/
def getVariableFromResult (refIdOf : List Char → Nat → Nat)
    (result : EvaluateContainer) (frameId : Nat) : AugmentedVariable :=
  let refId := refIdOf result.evaluateName frameId
  let base : AugmentedVariable :=
    match result.keyType with
    | some ContainerKeyType.integerKey =>
      { name := result.name, value := result.type, variablesReference := refId,
        namedVariables := 0, indexedVariables := result.elementCount,
        evaluateName := result.evaluateName, frameId := frameId,
        childVariables := ([] : List AugmentedVariable) }
    | some ContainerKeyType.stringKey =>
      { name := result.name, value := result.type, variablesReference := refId,
        namedVariables := result.elementCount, indexedVariables := 0,
        evaluateName := result.evaluateName, frameId := frameId,
        childVariables := ([] : List AugmentedVariable) }
    | none =>
      { name := result.name, value := result.value, variablesReference := 0,
        namedVariables := 0, indexedVariables := 0,
        evaluateName := result.evaluateName, frameId := frameId,
        childVariables := ([] : List AugmentedVariable) }
  let childVariables := result.children.attach.map
    (fun child => getVariableFromResult refIdOf child.val frameId)
  { base with childVariables := childVariables }
termination_by result
decreasing_by
  have := child.property
  have hsize : sizeOf child.val < sizeOf result.children := List.sizeOf_lt_of_mem this
  cases result
  simp at hsize ⊢
  omega

/-- A thread entry of the `threads` response body. -/
structure ThreadInfo where
  id : Nat
deriving DecidableEq, Repr

/-- Translated from `threadsRequest`: only when the adapter is at the
debugger prompt is `getThreads` issued; otherwise the handler logs and
answers with an empty thread list. -/
def threadsRequest (isAtDebuggerPrompt : Bool) (getThreadsReply : List RokuThread) :
    List DeviceCommand × List ThreadInfo :=
  if isAtDebuggerPrompt then
    ([DeviceCommand.getThreads],
      getThreadsReply.map (fun thread => { id := thread.threadId }))
  else ([], [])

/-- A stack frame of the `stackTrace` response body. -/
structure StackFrameInfo where
  id : Nat
  name : List Char
  sourcePath : List Char
  line : Nat
  column : Nat
deriving DecidableEq, Repr

/-- Translated from `stackTraceRequest`: only at the debugger prompt is
`getStackTrace` issued; each frame's location is translated through
the source-location resolver, and the function name's casing is fixed
from the source file when found (`caseFix` stands for the cached
`getCorrectFunctionNameCase`, `none` when lookup fails or throws);
otherwise the body carries no frames and `totalFrames` 0. -/
def stackTraceRequest (isAtDebuggerPrompt : Bool) (threadId : Nat)
    (getStackTraceReply : List DebugFrame)
    (locate : List Char → Nat → SourceLocation)
    (caseFix : List Char → List Char → Option (List Char)) :
    List DeviceCommand × List StackFrameInfo × Nat :=
  if isAtDebuggerPrompt then
    let frames := getStackTraceReply.map (fun debugFrame =>
      let sourceLocation := locate debugFrame.filePath debugFrame.lineNumber
      let functionIdentifier :=
        match caseFix sourceLocation.filePath debugFrame.functionIdentifier with
        | some functionName => functionName
        | none => debugFrame.functionIdentifier
      { id := debugFrame.frameId, name := functionIdentifier,
        sourcePath := sourceLocation.filePath,
        line := sourceLocation.lineNumber, column := 1 })
    ([DeviceCommand.getStackTrace threadId], frames, frames.length)
  else ([], [], 0)

/-- The `filter` field of a `variables` request. -/
inductive VariablesFilter
  | indexed
  | named
deriving DecidableEq, Repr

/-- Arguments of a `variables` request. -/
structure VariablesArguments where
  variablesReference : Nat
  filter : Option VariablesFilter
  start : Nat
  count : Nat
deriving DecidableEq, Repr

/-- Translated from `variablesRequest`: only at the debugger prompt is
the cached variable looked up and, when its children are not yet
known, `getVariable` issued; an `indexed` filter slices the requested
range; away from the prompt the handler logs and sends the response
with no body (`none`). -/
def variablesRequest (isAtDebuggerPrompt : Bool)
    (refIdOf : List Char → Nat → Nat)
    (getVariableReply : List Char → Nat → Option EvaluateContainer)
    (variablesMap : Nat → Option AugmentedVariable)
    (args : VariablesArguments) :
    List DeviceCommand × Except (List Char) (Option (List AugmentedVariable)) :=
  if isAtDebuggerPrompt then
    match variablesMap args.variablesReference with
    | none =>
      ([], Except.error (chars "TypeError: cannot read childVariables of undefined"))
    | some v =>
      match v.childVariables.isEmpty with
      | true =>
        match getVariableReply v.evaluateName v.frameId with
        | none =>
          ([DeviceCommand.getVariable v.evaluateName v.frameId false],
            Except.error (chars "TypeError: cannot read childVariables of undefined"))
        | some result =>
          let tempVar := getVariableFromResult refIdOf result v.frameId
          let childVariables :=
            if args.filter = some VariablesFilter.indexed then
              (tempVar.childVariables.drop args.start).take args.count
            else tempVar.childVariables
          ([DeviceCommand.getVariable v.evaluateName v.frameId false],
            Except.ok (some childVariables))
      | false =>
        let childVariables :=
          if args.filter = some VariablesFilter.indexed then
            (v.childVariables.drop args.start).take args.count
          else v.childVariables
        ([], Except.ok (some childVariables))
  else ([], Except.ok none)

/-- The evaluation context of an `evaluate` request. -/
inductive EvaluateContext
  | hover
  | watch
  | repl
  | other
deriving DecidableEq, Repr

/-- Arguments of an `evaluate` request. -/
structure EvaluateArguments where
  context : EvaluateContext
  expression : List Char
  frameId : Nat
deriving DecidableEq, Repr

/-- The body of an `evaluate` response. -/
structure EvaluateBody where
  result : List Char
  variablesReference : Nat
  namedVariables : Nat
  indexedVariables : Nat
deriving DecidableEq, Repr

/-- Characters trimmed from both ends, as JavaScript `trim()`. -/
def trimChars (s : List Char) : List Char :=
  ((s.dropWhile Char.isWhitespace).reverse.dropWhile Char.isWhitespace).reverse

/-- Lower-cased characters, as JavaScript `toLowerCase()`. -/
def toLowerChars (s : List Char) : List Char := s.map Char.toLower

/-- Translated from `autoInsertClosingQuote`: appends the closing
quotemark the vscode hover occasionally forgets. -/
def autoInsertClosingQuote (text : List Char) : List Char :=
  if (chars "\"").isPrefixOf text ∧ ¬((chars "\"").isSuffixOf (trimChars text)) then
    trimChars text ++ chars "\""
  else text

/-- Translated from `evaluateRequest`: a hover expression first gets
its closing quote restored; only at the debugger prompt, and only for
hover/watch contexts or expressions starting with `print`, is the
expression looked up (from the cache, else via `getVariable`); in
every other case — in particular whenever the adapter is not at the
prompt — no command is issued and the response carries no body. -/
def evaluateRequest (isAtDebuggerPrompt : Bool)
    (refIdOf : List Char → Nat → Nat)
    (getVariableReply : List Char → Nat → Option EvaluateContainer)
    (variablesMap : Nat → Option AugmentedVariable)
    (args : EvaluateArguments) :
    List DeviceCommand × Except (List Char) (Option EvaluateBody) :=
  let expressionFixed :=
    if args.context = EvaluateContext.hover then autoInsertClosingQuote args.expression
    else args.expression
  if isAtDebuggerPrompt then
    if args.context = EvaluateContext.hover ∨ args.context = EvaluateContext.watch
        ∨ (chars "print ").isPrefixOf (trimChars (toLowerChars expressionFixed)) then
      let expression :=
        if (chars "print").isPrefixOf (toLowerChars expressionFixed) then
          trimChars (expressionFixed.drop 5)
        else trimChars expressionFixed
      match variablesMap (refIdOf expression args.frameId) with
      | some v =>
        ([], Except.ok (some
          { result := v.value, variablesReference := v.variablesReference,
            namedVariables := v.namedVariables,
            indexedVariables := v.indexedVariables }))
      | none =>
        match getVariableReply (toLowerChars expression) args.frameId with
        | none =>
          ([DeviceCommand.getVariable (toLowerChars expression) args.frameId true],
            Except.error (chars "bad variable request"))
        | some result =>
          let v := getVariableFromResult refIdOf result args.frameId
          ([DeviceCommand.getVariable (toLowerChars expression) args.frameId true],
            Except.ok (some
              { result := v.value, variablesReference := v.variablesReference,
                namedVariables := v.namedVariables,
                indexedVariables := v.indexedVariables }))
    else ([], Except.ok none)
  else ([], Except.ok none)

/-- C4: every inspection request (threads, stack trace, variables,
evaluate) issued while the adapter is not at the debugger prompt
issues no device command and does not throw, recovering locally with
an empty ("no data") result; only at the prompt is the underlying
command written (shown for threads and stack trace, whose at-prompt
branches issue it unconditionally). -/
theorem notAtPrompt_inspection_recovers
    (getThreadsReply : List RokuThread) (threadId : Nat)
    (getStackTraceReply : List DebugFrame)
    (locate : List Char → Nat → SourceLocation)
    (caseFix : List Char → List Char → Option (List Char))
    (refIdOf : List Char → Nat → Nat)
    (getVariableReply : List Char → Nat → Option EvaluateContainer)
    (variablesMap : Nat → Option AugmentedVariable)
    (vargs : VariablesArguments) (eargs : EvaluateArguments) :
    threadsRequest false getThreadsReply = ([], [])
    ∧ stackTraceRequest false threadId getStackTraceReply locate caseFix = ([], [], 0)
    ∧ variablesRequest false refIdOf getVariableReply variablesMap vargs
        = ([], Except.ok none)
    ∧ evaluateRequest false refIdOf getVariableReply variablesMap eargs
        = ([], Except.ok none)
    ∧ (threadsRequest true getThreadsReply).1 = [DeviceCommand.getThreads]
    ∧ (stackTraceRequest true threadId getStackTraceReply locate caseFix).1
        = [DeviceCommand.getStackTrace threadId] :=
  ⟨rfl, rfl, rfl, rfl, rfl, rfl⟩

/-! ### Compile-error handling (`launchRequest` compile-errors handler) -/

/-- One compile error as reported by the device. -/
structure CompileErrorInfo where
  path : List Char
  lineNumber : Nat
  message : List Char
deriving DecidableEq, Repr

/-- An event the session sends to the host. -/
inductive SessionEvent
  | compileFailure (errs : List CompileErrorInfo)
  | logOutput (line : List Char)
  | terminated
deriving DecidableEq, Repr

/-- A side effect of the compile-errors handler on the adapter and
device. -/
inductive AdapterEffect
  | destroyAdapter
  | pressHomeButton
deriving DecidableEq, Repr

/-- Translated from the `compile-errors` handler: each error's path
and line are replaced by their source-space translation before the
event is emitted. -/
def translateCompileError (locate : List Char → Nat → SourceLocation)
    (e : CompileErrorInfo) : CompileErrorInfo :=
  let sourceLocation := locate e.path e.lineNumber
  { e with path := sourceLocation.filePath,
           lineNumber := sourceLocation.lineNumber }

/-- Translated from the `compile-errors` handler registered in
`launchRequest`: translate every error to source coordinates, send one
`CompileFailureEvent`, destroy the adapter, press the home button. -/
def onCompileErrors (locate : List Char → Nat → SourceLocation)
    (compileErrors : List CompileErrorInfo) :
    List SessionEvent × List AdapterEffect :=
  ([SessionEvent.compileFailure (compileErrors.map (translateCompileError locate))],
    [AdapterEffect.destroyAdapter, AdapterEffect.pressHomeButton])

/-- Whether an event is a compile-errors event. -/
def isCompileFailure (e : SessionEvent) : Bool :=
  match e with
  | SessionEvent.compileFailure _ => true
  | _ => false

/-- The errors a session command can fail with at the client boundary. -/
inductive ClientError
  | notConnected
  | notAtPrompt
  | commandTimeout
deriving DecidableEq, Repr

/-- Modelled from the spec: the adapter's connection state — terminal
once destroyed. -/
structure AdapterConnection where
  connected : Bool
deriving DecidableEq, Repr

/-- Modelled from the spec: `destroy` tears the connection down;
the state is terminal. -/
def destroyAdapter (_a : AdapterConnection) : AdapterConnection :=
  { connected := false }

/-- Modelled from the spec: every command fails immediately with a
not-connected error when the socket is not open. -/
def issueDeviceCommand (a : AdapterConnection) (c : DeviceCommand) :
    Except ClientError DeviceCommand :=
  if a.connected then Except.ok c else Except.error ClientError.notConnected

/-- C5: on a compile-error block exactly one compile-errors event is
emitted, carrying every error translated to source coordinates; the
adapter is destroyed (terminal), and every command issued against the
destroyed adapter fails with the not-connected error instead of being
executed. -/
theorem onCompileErrors_terminal (locate : List Char → Nat → SourceLocation)
    (compileErrors : List CompileErrorInfo) (a : AdapterConnection)
    (c : DeviceCommand) :
    (onCompileErrors locate compileErrors).1
        = [SessionEvent.compileFailure
            (compileErrors.map (translateCompileError locate))]
    ∧ ((onCompileErrors locate compileErrors).1.filter isCompileFailure).length = 1
    ∧ AdapterEffect.destroyAdapter ∈ (onCompileErrors locate compileErrors).2
    ∧ (destroyAdapter a).connected = false
    ∧ issueDeviceCommand (destroyAdapter a) c = Except.error ClientError.notConnected :=
  ⟨rfl, rfl, List.mem_cons_self _ _, rfl, rfl⟩

end BrightScript
